import Mathlib

set_option maxHeartbeats 1000000

/-!
Verification development for the BYOVD watchdog scripts.

The embedding covers the two algorithmic scripts:

* `scripts/byovd.py` — the policy-matching engine (namespace `Byovd`):
  the three sub-tests `has_blocked_hash`, `has_blocked_version`,
  `has_blocked_signer`, their OR-combination, and the classification
  loop of `generate_json_results`.
* `scripts/compare_hvci.py` — the snapshot-reconciliation engine
  (namespace `CompareHVCI`): `get_driver_signature`,
  `create_driver_map`, `compare_drivers`,
  `format_changes_for_changelog` and `save_changelog`.

Python strings are modelled through their character lists so that every
definition evaluates by kernel reduction.  Python dictionaries are
modelled as association lists with unique keys, written by an insert
that replaces the value of an existing key in place — exactly the
observable behaviour of dict assignment.  Python sets are modelled as
lists whose only observation is membership.  An `Option String` field
models a JSON field that may be absent (or `null`, which every use in
the scripts treats identically to absent via truthiness or defaults).
-/

/-- Model of Python `str.lower()` for the ASCII range (the range that
occurs in hash strings, filenames and rule ids handled by the scripts):
maps each character through `Char.toLower`. -/
def pyLower (s : String) : String := ⟨s.data.map Char.toLower⟩

/-- Model of Python truthiness for an optional string: `True` exactly
when the value is present and non-empty (an absent key read with
default `""` and an empty string are both falsy). -/
def truthy (o : Option String) : Bool := o.getD "" != ""

/-- Model of Python `dict.get` / `d[k]` read on an association-list
dictionary: the value at the first (hence, for a well-formed dict, the
only) occurrence of the key. -/
def dictGet {α : Type} : List (String × α) → String → Option α
  | [], _ => none
  | p :: ps, k => if p.1 = k then some p.2 else dictGet ps k

/-- Model of Python `d[k] = v` dict assignment: replace the value at the
first occurrence of the key in place, else append the new pair at the
end (dicts built only through this operation have unique keys, so the
first occurrence is the occurrence). -/
def dictInsert {α : Type} : List (String × α) → String → α → List (String × α)
  | [], k, v => [(k, v)]
  | p :: ps, k, v => if p.1 = k then (k, v) :: ps else p :: dictInsert ps k v

/-- Keys of an association-list dictionary, in insertion order. -/
def dictKeys {α : Type} (m : List (String × α)) : List String := m.map Prod.fst

/-- Model of Python `{**a, **b}`: start from `a` and assign every pair
of `b` in order, `b` overriding `a` on common keys. -/
def pyUnion {α : Type} (a b : List (String × α)) : List (String × α) :=
  b.foldl (fun m p => dictInsert m p.1 p.2) a

namespace Byovd

/-- The `Authentihash` object of a loldrivers sample: optional
MD5/SHA1/SHA256 hex strings. -/
structure Authentihash where
  md5 : Option String
  sha1 : Option String
  sha256 : Option String
deriving DecidableEq

/-- The `TBS` hash mapping of a certificate: optional
MD5/SHA1/SHA256/SHA384 hex strings. -/
structure TBS where
  md5 : Option String
  sha1 : Option String
  sha256 : Option String
  sha384 : Option String
deriving DecidableEq

/-- One certificate of a signature: an optional `TBS` mapping
(certificates without a `TBS` key are skipped by the signer test). -/
structure Certificate where
  tbs : Option TBS
deriving DecidableEq

/-- One signature of a driver sample: an optional `Certificates`
sequence (signatures without a `Certificates` key are skipped). -/
structure Signature where
  certificates : Option (List Certificate)
deriving DecidableEq

/-- A loldrivers driver sample record, restricted to the fields the
matching engine reads.  `none` models an absent field. -/
structure Driver where
  md5 : Option String
  sha1 : Option String
  sha256 : Option String
  originalFilename : Option String
  fileVersion : Option String
  authentihash : Option Authentihash
  signatures : Option (List Signature)
deriving DecidableEq

/-- A signer entry of the parsed policy, as built by `load_policy`:
the lowercased `CertRoot` values and the `FileAttribRef` rule ids. -/
structure Signer where
  cert_roots : List String
  file_attrib_refs : List String
deriving DecidableEq

/-- Lowercasing view of an `Authentihash` record, used to state that
the hash sub-test only depends on the letter-case-erased fields. -/
def lowerAuth (a : Authentihash) : Authentihash :=
  ⟨a.md5.map pyLower, a.sha1.map pyLower, a.sha256.map pyLower⟩

/-- The deny-hash collection loop of `load_policy`: each `Deny` rule's
`Hash` attribute (the empty string standing for an absent attribute) is
lowercased and kept when non-empty.  The Python `set` is modelled as a
list whose only observation is membership. -/
def load_policy_deny_hashes (rule_hashes : List String) : List String :=
  rule_hashes.filterMap (fun h =>
    let hash_value := pyLower h
    if hash_value = "" then none else some hash_value)

/-- The loop body of the candidate-hash collection: one hash field read
with default `""`, lowercased, kept when non-empty
(`h = driver.get(hash_type, "").lower(); if h: ...add(h)`). -/
def candOf (o : Option String) : Option String :=
  let h := pyLower (o.getD "")
  if h = "" then none else some h

/-- The candidate-hash collection of `has_blocked_hash`: the driver's
own MD5/SHA1/SHA256 (read with default `""`, lowercased, kept when
non-empty) followed by the same three fields of the `Authentihash`
object when one exists.  The Python `set` is modelled as a list; the
set-intersection test only observes membership. -/
def hashes_to_check (driver : Driver) : List String :=
  let direct := [driver.md5, driver.sha1, driver.sha256].filterMap candOf
  match driver.authentihash with
  | none => direct
  | some auth_hash =>
    direct ++ ([auth_hash.md5, auth_hash.sha1, auth_hash.sha256].filterMap candOf)

/-- Sub-test 1 of `byovd.py`: the driver is hash-blocked when the
candidate-hash set intersects the deny-hash set
(`len(hashes_to_check & deny_hashes) > 0`). -/
def has_blocked_hash (driver : Driver) (deny_hashes : List String) : Bool :=
  (hashes_to_check driver).any (fun h => deny_hashes.contains h)

/-- Splitting a character list at every `'.'`, keeping empty pieces —
the decomposition `packaging` performs on a release version string. -/
def splitDot : List Char → List (List Char)
  | [] => [[]]
  | x :: xs =>
    match splitDot xs with
    | [] => [[]]
    | y :: ys => if x = '.' then [] :: y :: ys else (x :: y) :: ys

/-- Numeric value of a digit list (the usual base-10 reading, so leading
zeros are allowed, as in `packaging`). -/
def digitsToNat (p : List Char) : Nat :=
  p.foldl (fun n c => n * 10 + (c.toNat - 48)) 0

/-- Model of `packaging.version.parse` restricted to plain
dotted-numeric release strings, the shape of version strings the policy
and the feed carry: a string of the form `n1.n2.....nk` with every
component a non-empty digit sequence parses to its list of numeric
components; any other string is treated as unparsable
(`packaging.version.InvalidVersion`). -/
def parseVersion (s : String) : Option (List Nat) :=
  let parts := splitDot s.data
  if parts.all (fun p => !p.isEmpty && p.all (fun c => c.isDigit)) then
    some (parts.map digitsToNat)
  else
    none

/-- Release-tuple comparison of `packaging` (PEP 440): component-wise
numeric comparison, the shorter tuple padded with zeros. -/
def cmpRelease : List Nat → List Nat → Ordering
  | [], ys => if ys.any (fun y => 0 < y) then Ordering.lt else Ordering.eq
  | x :: xs, [] => if 0 < x then Ordering.gt else cmpRelease xs []
  | x :: xs, y :: ys =>
    if x < y then Ordering.lt else if y < x then Ordering.gt else cmpRelease xs ys

/-- The `<=` test on parsed release versions. -/
def versionLe (a b : List Nat) : Bool :=
  match cmpRelease a b with
  | Ordering.gt => false
  | _ => true

/-- Splitting a character list at every whitespace character, keeping
empty pieces. -/
def splitWhitespace : List Char → List (List Char)
  | [] => [[]]
  | x :: xs =>
    match splitWhitespace xs with
    | [] => [[]]
    | y :: ys => if x.isWhitespace then [] :: y :: ys else (x :: y) :: ys

/-- The version-string cleaning of `has_blocked_version`: replace every
comma with a dot (`driver_version.replace(',', '.')`), split on
whitespace discarding empty tokens (Python `str.split()`), and keep the
first token, or `""` when there is none. -/
def cleanVersion (driver_version : String) : String :=
  let replaced := driver_version.data.map (fun c => if c = ',' then '.' else c)
  let version_parts := (splitWhitespace replaced).filter (fun p => !p.isEmpty)
  ⟨version_parts.headD []⟩

/-- Sub-test 2 of `byovd.py`: the driver is version-blocked when its
lowercased `OriginalFilename` is a key of `deny_file_versions`, its
cleaned `FileVersion` and the ceiling both parse, and the cleaned
version compares `<=` the ceiling; every guard failure and every parse
failure yields `false`.  The unused `file_attribs` parameter is kept
from the source signature. -/
def has_blocked_version (driver : Driver) (deny_file_versions : List (String × String))
    (file_attribs : List (String × String)) : Bool :=
  let original_filename := pyLower (driver.originalFilename.getD "")
  if original_filename = "" then false
  else
    match dictGet deny_file_versions original_filename with
    | none => false
    | some max_version =>
      if max_version = "" then false
      else
        let driver_version := driver.fileVersion.getD ""
        if driver_version = "" then false
        else
          let clean_version := cleanVersion driver_version
          if clean_version = "" then false
          else
            match parseVersion clean_version, parseVersion max_version with
            | some dv, some mv => versionLe dv mv
            | _, _ => false

/-- The lowercased TBS hashes present on a certificate, in the source's
MD5, SHA1, SHA256, SHA384 order (absent algorithms are skipped). -/
def tbsHashes (tbs : TBS) : List String :=
  [tbs.md5, tbs.sha1, tbs.sha256, tbs.sha384].filterMap (fun o => o.map pyLower)

/-- The scope condition of one signer against the resolved
`file_attrib_id` (`None` standing for Python `None`): true when the id
is truthy and contained in the signer's `file_attrib_refs`
(`file_attrib_id and file_attrib_id in signer['file_attrib_refs']`). -/
def ridMatch (file_attrib_id : Option String) (file_attrib_refs : List String) : Bool :=
  match file_attrib_id with
  | some rid => rid != "" && file_attrib_refs.contains rid
  | none => false

/-- The innermost test of the signer loop: the certificate hash occurs
in the signer's cert roots, and the signer is either unscoped (empty
`file_attrib_refs`) or scoped to the resolved file-attribute id. -/
def signerHit (cert_hash : String) (file_attrib_id : Option String) (signer : Signer) : Bool :=
  signer.cert_roots.contains cert_hash &&
    (signer.file_attrib_refs.isEmpty || ridMatch file_attrib_id signer.file_attrib_refs)

/-- The certificate level of the signer loop: every TBS hash present on
the certificate is tried against every signer (a certificate without a
`TBS` mapping is skipped). -/
def certHit (file_attrib_id : Option String) (signer_info : List Signer)
    (cert : Certificate) : Bool :=
  match cert.tbs with
  | none => false
  | some tbs =>
    (tbsHashes tbs).any (fun cert_hash =>
      signer_info.any (signerHit cert_hash file_attrib_id))

/-- The signature level of the signer loop: every certificate of the
signature is tried (a signature without a `Certificates` sequence is
skipped). -/
def sigHit (file_attrib_id : Option String) (signer_info : List Signer)
    (sig : Signature) : Bool :=
  match sig.certificates with
  | none => false
  | some certs => certs.any (certHit file_attrib_id signer_info)

/-- Sub-test 3 of `byovd.py`: the driver is signer-blocked when some
signature's certificate carries a TBS hash that occurs in some signer's
`cert_roots`, and that signer either has empty `file_attrib_refs` or
the driver's lowercased `OriginalFilename` resolves through
`file_attribs` to a truthy rule id contained in the signer's
`file_attrib_refs`.  Each nesting level of the Python loop is one
helper above; the early `return True` is the `any` combinator. -/
def has_blocked_signer (driver : Driver) (signer_info : List Signer)
    (file_attribs : List (String × String)) : Bool :=
  match driver.signatures with
  | none => false
  | some sigs =>
    let original_filename := pyLower (driver.originalFilename.getD "")
    let file_attrib_id :=
      if original_filename = "" then none else dictGet file_attribs original_filename
    sigs.any (sigHit file_attrib_id signer_info)

/-- The block decision of `generate_json_results` and of `main`: the OR
of the three sub-tests. -/
def is_blocked (driver : Driver) (deny_hashes : List String)
    (deny_file_versions : List (String × String)) (signer_info : List Signer)
    (file_attribs : List (String × String)) : Bool :=
  has_blocked_hash driver deny_hashes ||
    has_blocked_version driver deny_file_versions file_attribs ||
    has_blocked_signer driver signer_info file_attribs

/-- The result object of `generate_json_results`, restricted to the
classification content: the two buckets hold the classified samples
themselves (the Python code stores a display projection `driver_info`
of each sample; the projection is output plumbing and carries no
decision logic). -/
structure Results where
  total_drivers : Nat
  blocked_count : Nat
  allowed_count : Nat
  allowed_drivers : List Driver
  blocked_drivers : List Driver
deriving DecidableEq

/-- The classification loop of `generate_json_results`: each driver is
appended, in input order, to exactly one bucket according to
`is_blocked`, and the counters count the buckets — i.e. the buckets are
the two complementary filters of the input list and the counters are
their lengths. -/
def generate_json_results (loldrivers : List Driver) (deny_hashes : List String)
    (deny_file_versions : List (String × String)) (signer_info : List Signer)
    (file_attribs : List (String × String)) : Results :=
  let blocked := loldrivers.filter
    (fun driver => is_blocked driver deny_hashes deny_file_versions signer_info file_attribs)
  let allowed := loldrivers.filter
    (fun driver => !is_blocked driver deny_hashes deny_file_versions signer_info file_attribs)
  { total_drivers := loldrivers.length
    blocked_count := blocked.length
    allowed_count := allowed.length
    allowed_drivers := allowed
    blocked_drivers := blocked }

end Byovd

namespace CompareHVCI

/-- A driver record of a saved BYOVDFinder result file, restricted to
the fields the reconciliation engine reads.  `none` models an absent
field (or a JSON `null`, which every use below treats identically via
truthiness or a default). -/
structure Driver where
  filename : Option String
  driver_id : Option String
  md5 : Option String
  sha1 : Option String
  sha256 : Option String
deriving DecidableEq

/-- The identity join key of `compare_hvci.py`: `sha256:` plus the
lowercased sha256 when present and non-empty, else `sha1:`, else
`md5:`, else the synthetic `file:` key built from `filename` and
`driver_id` with `unknown` defaults. -/
def get_driver_signature (driver : Driver) : String :=
  if truthy driver.sha256 then "sha256:" ++ pyLower (driver.sha256.getD "")
  else if truthy driver.sha1 then "sha1:" ++ pyLower (driver.sha1.getD "")
  else if truthy driver.md5 then "md5:" ++ pyLower (driver.md5.getD "")
  else "file:" ++ driver.filename.getD "unknown" ++ "_" ++ driver.driver_id.getD "unknown"

/-- The signature→record dictionary built by `create_driver_map`: every
record is assigned at its signature, so a later record with the same
signature overwrites an earlier one. -/
def create_driver_map (drivers : List Driver) : List (String × Driver) :=
  drivers.foldl (fun driver_map driver =>
    dictInsert driver_map (get_driver_signature driver) driver) []

/-- One loaded result file, restricted to the two bucket lists
`compare_drivers` reads (the summary object is not consulted). -/
structure ResultsData where
  allowed_drivers : List Driver
  blocked_drivers : List Driver
deriving DecidableEq

/-- One record of the `status_changes` output: the new-snapshot driver
record plus the two status labels. -/
structure StatusChange where
  driver : Driver
  old_status : String
  new_status : String
deriving DecidableEq

/-- The `summary` object of a comparison. -/
structure Summary where
  total_removed : Nat
  total_added : Nat
  removed_allowed_count : Nat
  removed_blocked_count : Nat
  added_allowed_count : Nat
  added_blocked_count : Nat
  status_changes_count : Nat
deriving DecidableEq

/-- The full output of `compare_drivers`. -/
structure Comparison where
  removed_allowed : List Driver
  removed_blocked : List Driver
  added_allowed : List Driver
  added_blocked : List Driver
  status_changes : List StatusChange
  summary : Summary
deriving DecidableEq

/-- The reconciliation core of `compare_hvci.py`.  The Python iterates
over the `removed_signatures`, `added_signatures` and
`common_signatures` sets; the sets are modelled as the corresponding
duplicate-free filtered key lists (set iteration order is unspecified
in the source, and no property below depends on it).  Indexing
`old_all_drivers[s]` / `new_all_drivers[s]`, which cannot fail for a
key of the map, is modelled by the `Option`-valued `dictGet` threaded
through `filterMap`. -/
def compare_drivers (old_data new_data : ResultsData) : Comparison :=
  let old_allowed_map := create_driver_map old_data.allowed_drivers
  let old_blocked_map := create_driver_map old_data.blocked_drivers
  let new_allowed_map := create_driver_map new_data.allowed_drivers
  let new_blocked_map := create_driver_map new_data.blocked_drivers
  let old_all_drivers := pyUnion old_allowed_map old_blocked_map
  let new_all_drivers := pyUnion new_allowed_map new_blocked_map
  let removed_signatures := (dictKeys old_all_drivers).filter
    (fun s => !(dictKeys new_all_drivers).contains s)
  let added_signatures := (dictKeys new_all_drivers).filter
    (fun s => !(dictKeys old_all_drivers).contains s)
  let removed_allowed := removed_signatures.filterMap (fun s =>
    if (dictKeys old_allowed_map).contains s then dictGet old_all_drivers s else none)
  let removed_blocked := removed_signatures.filterMap (fun s =>
    if (dictKeys old_allowed_map).contains s then none else dictGet old_all_drivers s)
  let added_allowed := added_signatures.filterMap (fun s =>
    if (dictKeys new_allowed_map).contains s then dictGet new_all_drivers s else none)
  let added_blocked := added_signatures.filterMap (fun s =>
    if (dictKeys new_allowed_map).contains s then none else dictGet new_all_drivers s)
  let common_signatures := (dictKeys old_all_drivers).filter
    (fun s => (dictKeys new_all_drivers).contains s)
  let status_changes := common_signatures.filterMap (fun s =>
    (dictGet new_all_drivers s).bind (fun new_driver =>
      let old_was_allowed := (dictKeys old_allowed_map).contains s
      let new_is_allowed := (dictKeys new_allowed_map).contains s
      if old_was_allowed != new_is_allowed then
        some { driver := new_driver
               old_status := if old_was_allowed then "allowed" else "blocked"
               new_status := if new_is_allowed then "allowed" else "blocked" }
      else none))
  { removed_allowed := removed_allowed
    removed_blocked := removed_blocked
    added_allowed := added_allowed
    added_blocked := added_blocked
    status_changes := status_changes
    summary :=
      { total_removed := removed_signatures.length
        total_added := added_signatures.length
        removed_allowed_count := removed_allowed.length
        removed_blocked_count := removed_blocked.length
        added_allowed_count := added_allowed.length
        added_blocked_count := added_blocked.length
        status_changes_count := status_changes.length } }

/-- Concatenation of the two buckets of a result file — the records
whose signatures form the allowed-union-blocked key set. -/
def allDrivers (data : ResultsData) : List Driver :=
  data.allowed_drivers ++ data.blocked_drivers

/-- The set of distinct signatures of a record list, used to state that
the comparison summary counts distinct signatures. -/
def sigFinset (drivers : List Driver) : Finset String :=
  (drivers.map get_driver_signature).toFinset

/-- One compact record of a formatted changelog `removed`/`added`
list: `{name, hash, driver_id}` with the source's defaults. -/
structure ChangeRecord where
  name : String
  hash : Option String
  driver_id : String
deriving DecidableEq

/-- One compact record of a formatted changelog `status_changes` list. -/
structure StatusChangeRecord where
  name : String
  hash : Option String
  driver_id : String
  old_status : String
  new_status : String
deriving DecidableEq

/-- The `data` object of a changelog entry. -/
structure Changes where
  removed : List ChangeRecord
  added : List ChangeRecord
  status_changes : List StatusChangeRecord
deriving DecidableEq

/-- The nested fallback `driver.get('sha256', driver.get('sha1',
driver.get('md5', 'N/A')))` of the changelog formatter.  With the
absent-or-null collapse of the record model this reads: the first
present hash field, else `N/A`; the `Option` result keeps the model
honest about a record whose present hash could be a JSON `null`. -/
def fallbackHash (driver : Driver) : Option String :=
  some (driver.sha256.getD (driver.sha1.getD (driver.md5.getD "N/A")))

/-- The per-driver compact record of `format_changes_for_changelog`. -/
def formatRecord (driver : Driver) : ChangeRecord :=
  { name := driver.filename.getD "Unknown"
    hash := fallbackHash driver
    driver_id := driver.driver_id.getD "N/A" }

/-- The formatter of `save_changelog`: removed = removed_allowed then
removed_blocked, added = added_allowed then added_blocked, each mapped
to the compact record; status changes keep their two labels. -/
def format_changes_for_changelog (comparison : Comparison) : Changes :=
  { removed := (comparison.removed_allowed ++ comparison.removed_blocked).map formatRecord
    added := (comparison.added_allowed ++ comparison.added_blocked).map formatRecord
    status_changes := comparison.status_changes.map (fun change =>
      { name := change.driver.filename.getD "Unknown"
        hash := fallbackHash change.driver
        driver_id := change.driver.driver_id.getD "N/A"
        old_status := change.old_status
        new_status := change.new_status }) }

/-- One dated entry of the stored changelog sequence. -/
structure ChangelogEntry where
  date : String
  data : Changes
deriving DecidableEq

/-- The total-change count `save_changelog` tests before writing. -/
def totalChanges (changes : Changes) : Nat :=
  changes.removed.length + changes.added.length + changes.status_changes.length

/-- State-passing model of `save_changelog`: `date` stands for
`extract_date_from_filename(new_file)`, `existing_changelog` for the
sequence `load_existing_changelog` read from the output file, and the
result for the sequence the function leaves stored there — unchanged
when the formatted diff is empty (the function returns before loading
or writing), else the old sequence with one new `{date, data}` entry
appended. -/
def save_changelog (comparison : Comparison) (date : String)
    (existing_changelog : List ChangelogEntry) : List ChangelogEntry :=
  let changes := format_changes_for_changelog comparison
  let total_changes := totalChanges changes
  if total_changes = 0 then existing_changelog
  else existing_changelog ++ [{ date := date, data := changes }]

end CompareHVCI

/-! ## Shared helper lemmas -/

theorem string_eq_iff_data {s t : String} : s = t ↔ s.data = t.data := by
  constructor
  · intro h; rw [h]
  · intro h; cases s; cases t; exact congrArg String.mk h

theorem pyLower_data (s : String) : (pyLower s).data = s.data.map Char.toLower := rfl

theorem pyLower_eq_empty_iff {s : String} : pyLower s = "" ↔ s = "" := by
  rw [string_eq_iff_data, string_eq_iff_data, pyLower_data]
  show s.data.map Char.toLower = [] ↔ s.data = []
  exact List.map_eq_nil_iff

theorem string_append_data (s t : String) : (s ++ t).data = s.data ++ t.data := by
  cases s; cases t; rfl

theorem contains_iff_mem {l : List String} {s : String} : l.contains s = true ↔ s ∈ l := by
  induction l with
  | nil => simp
  | cons a as ih =>
    show (s == a || as.contains s) = true ↔ s ∈ a :: as
    rw [Bool.or_eq_true, ih]
    simp [beq_iff_eq]

theorem dictGet_insert {α : Type} (m : List (String × α)) (k s : String) (v : α) :
    dictGet (dictInsert m k v) s = if s = k then some v else dictGet m s := by
  induction m with
  | nil =>
    simp only [dictInsert, dictGet]
    by_cases hs : s = k
    · simp [hs]
    · have h1 : ¬ k = s := fun h => hs h.symm
      simp [hs, h1]
  | cons p ps ih =>
    by_cases hp : p.1 = k
    · simp only [dictInsert, if_pos hp, dictGet]
      by_cases hs : s = k
      · simp [hs]
      · have h1 : ¬ (k = s) := fun h => hs h.symm
        have h2 : ¬ (p.1 = s) := by rw [hp]; exact h1
        simp [h1, h2, hs]
    · simp only [dictInsert, if_neg hp, dictGet]
      by_cases hps : p.1 = s
      · have h1 : ¬ (s = k) := fun h => hp (by rw [hps, h])
        simp [hps, h1]
      · simp [hps, ih]

theorem mem_dictKeys_insert {α : Type} (m : List (String × α)) (k s : String) (v : α) :
    s ∈ dictKeys (dictInsert m k v) ↔ s = k ∨ s ∈ dictKeys m := by
  induction m with
  | nil => simp [dictInsert, dictKeys]
  | cons p ps ih =>
    by_cases hp : p.1 = k
    · simp only [dictInsert, if_pos hp, dictKeys, List.map_cons, List.mem_cons]
      rw [hp]
      tauto
    · simp only [dictInsert, if_neg hp, dictKeys, List.map_cons, List.mem_cons]
      rw [show dictKeys (dictInsert ps k v) = (dictInsert ps k v).map Prod.fst from rfl] at ih
      rw [show dictKeys ps = ps.map Prod.fst from rfl] at ih
      tauto

theorem nodup_dictKeys_insert {α : Type} (m : List (String × α)) (k : String) (v : α)
    (h : (dictKeys m).Nodup) : (dictKeys (dictInsert m k v)).Nodup := by
  induction m with
  | nil => simp [dictInsert, dictKeys]
  | cons p ps ih =>
    simp only [dictKeys, List.map_cons, List.nodup_cons] at h
    by_cases hp : p.1 = k
    · simp only [dictInsert, if_pos hp, dictKeys, List.map_cons, List.nodup_cons]
      exact ⟨by rw [← hp]; exact h.1, h.2⟩
    · simp only [dictInsert, if_neg hp, dictKeys, List.map_cons, List.nodup_cons]
      constructor
      · intro hmem
        rcases (mem_dictKeys_insert ps k p.1 v).mp hmem with h1 | h2
        · exact hp h1
        · exact h.1 h2
      · exact ih h.2

theorem dictGet_isSome_iff_mem {α : Type} (m : List (String × α)) (s : String) :
    (dictGet m s).isSome = true ↔ s ∈ dictKeys m := by
  induction m with
  | nil => simp [dictGet, dictKeys]
  | cons p ps ih =>
    by_cases hp : p.1 = s
    · simp [dictGet, hp, dictKeys]
    · simp only [dictGet, if_neg hp, dictKeys, List.map_cons, List.mem_cons]
      rw [show dictKeys ps = ps.map Prod.fst from rfl] at ih
      constructor
      · intro h; exact Or.inr (ih.mp h)
      · rintro (h | h)
        · exact absurd h.symm hp
        · exact ih.mpr h

theorem dictGet_mem {α : Type} {m : List (String × α)} {s : String} {v : α}
    (h : dictGet m s = some v) : (s, v) ∈ m := by
  induction m with
  | nil => simp [dictGet] at h
  | cons p ps ih =>
    rw [show dictGet (p :: ps) s = if p.1 = s then some p.2 else dictGet ps s from rfl] at h
    split at h
    next hp =>
      have hv := Option.some.inj h
      exact List.mem_cons.mpr (Or.inl (by rw [← hp, ← hv]))
    next hp =>
      exact List.mem_cons_of_mem _ (ih h)

theorem dictGet_foldl_insert {α β : Type} (f : β → String) (g : β → α) (ds : List β)
    (acc : List (String × α)) (s : String) :
    dictGet (ds.foldl (fun m d => dictInsert m (f d) (g d)) acc) s =
      match ds.reverse.find? (fun d => f d == s) with
      | some d => some (g d)
      | none => dictGet acc s := by
  induction ds generalizing acc with
  | nil => simp
  | cons d rest ih =>
    simp only [List.foldl_cons, List.reverse_cons]
    rw [ih]
    rw [List.find?_append]
    cases hfind : rest.reverse.find? (fun d => f d == s) with
    | some d' => simp [hfind]
    | none =>
      simp only [hfind, Option.none_orElse]
      by_cases hd : f d = s
      · simp [List.find?, hd, dictGet_insert]
      · have hbeq : (f d == s) = false := by simp [hd]
        have hsf : ¬ s = f d := fun h => hd h.symm
        rw [dictGet_insert]
        simp [List.find?, hbeq, hsf]

theorem mem_dictKeys_foldl_insert {α β : Type} (f : β → String) (g : β → α) (ds : List β)
    (acc : List (String × α)) (s : String) :
    s ∈ dictKeys (ds.foldl (fun m d => dictInsert m (f d) (g d)) acc) ↔
      s ∈ dictKeys acc ∨ s ∈ ds.map f := by
  induction ds generalizing acc with
  | nil => simp
  | cons d rest ih =>
    simp only [List.foldl_cons, List.map_cons, List.mem_cons]
    rw [ih, mem_dictKeys_insert]
    tauto

theorem nodup_dictKeys_foldl_insert {α β : Type} (f : β → String) (g : β → α) (ds : List β)
    (acc : List (String × α)) (h : (dictKeys acc).Nodup) :
    (dictKeys (ds.foldl (fun m d => dictInsert m (f d) (g d)) acc)).Nodup := by
  induction ds generalizing acc with
  | nil => simpa
  | cons d rest ih => exact ih _ (nodup_dictKeys_insert _ _ _ h)

/-! ## Claim theorems -/

/-- C1: for every driver record and every policy index, the
classification loop of `generate_json_results` puts a driver into the
`blocked_drivers` bucket exactly when at least one of the three
sub-tests — `has_blocked_hash`, `has_blocked_version`,
`has_blocked_signer` — is true, and into `allowed_drivers` exactly
when all three are false. -/
theorem Byovd.is_blocked_or_of_subtests (loldrivers : List Byovd.Driver)
    (deny_hashes : List String) (deny_file_versions : List (String × String))
    (signer_info : List Byovd.Signer) (file_attribs : List (String × String))
    (driver : Byovd.Driver) :
    (driver ∈ (Byovd.generate_json_results loldrivers deny_hashes deny_file_versions
        signer_info file_attribs).blocked_drivers ↔
      driver ∈ loldrivers ∧
        (Byovd.has_blocked_hash driver deny_hashes ||
          Byovd.has_blocked_version driver deny_file_versions file_attribs ||
          Byovd.has_blocked_signer driver signer_info file_attribs) = true)
    ∧ (driver ∈ (Byovd.generate_json_results loldrivers deny_hashes deny_file_versions
        signer_info file_attribs).allowed_drivers ↔
      driver ∈ loldrivers ∧
        (Byovd.has_blocked_hash driver deny_hashes ||
          Byovd.has_blocked_version driver deny_file_versions file_attribs ||
          Byovd.has_blocked_signer driver signer_info file_attribs) = false) := by
  constructor
  · simp [Byovd.generate_json_results, Byovd.is_blocked, List.mem_filter]
  · simp [Byovd.generate_json_results, Byovd.is_blocked, List.mem_filter]

/-- C1 witness: a concrete hash-less, signature-less driver against the
empty policy lands in the allowed bucket. -/
theorem Byovd.is_blocked_or_of_subtests_witness :
    (⟨none, none, none, none, none, none, none⟩ : Byovd.Driver) ∈
      (Byovd.generate_json_results [⟨none, none, none, none, none, none, none⟩]
        [] [] [] []).allowed_drivers :=
  (Byovd.is_blocked_or_of_subtests [⟨none, none, none, none, none, none, none⟩]
    [] [] [] [] ⟨none, none, none, none, none, none, none⟩).2.mpr (by decide)

/-- C5: `get_driver_signature` follows the strict priority chain —
`sha256:` plus the lowercased sha256 when present and non-empty, else
`sha1:`, else `md5:`, else the synthetic `file:` key built from the
`filename` and `driver_id` fields with `unknown` substituted for each
absent one; being a total function it yields a defined signature even
when every field is absent. -/
theorem CompareHVCI.get_driver_signature_priority (driver : CompareHVCI.Driver) :
    (∀ s, driver.sha256 = some s → s ≠ "" →
      CompareHVCI.get_driver_signature driver = "sha256:" ++ pyLower s)
    ∧ (truthy driver.sha256 = false → ∀ s, driver.sha1 = some s → s ≠ "" →
      CompareHVCI.get_driver_signature driver = "sha1:" ++ pyLower s)
    ∧ (truthy driver.sha256 = false → truthy driver.sha1 = false →
      ∀ s, driver.md5 = some s → s ≠ "" →
      CompareHVCI.get_driver_signature driver = "md5:" ++ pyLower s)
    ∧ (truthy driver.sha256 = false → truthy driver.sha1 = false →
      truthy driver.md5 = false →
      CompareHVCI.get_driver_signature driver =
        "file:" ++ driver.filename.getD "unknown" ++ "_" ++
          driver.driver_id.getD "unknown") := by
  refine ⟨?_, ?_, ?_, ?_⟩
  · intro s hs hne
    have ht : truthy (some s) = true := by simp [truthy, hne]
    simp [CompareHVCI.get_driver_signature, hs, ht]
  · intro h256 s hs hne
    have ht : truthy (some s) = true := by simp [truthy, hne]
    simp [CompareHVCI.get_driver_signature, h256, hs, ht]
  · intro h256 h1 s hs hne
    have ht : truthy (some s) = true := by simp [truthy, hne]
    simp [CompareHVCI.get_driver_signature, h256, h1, hs, ht]
  · intro h256 h1 h5
    simp [CompareHVCI.get_driver_signature, h256, h1, h5]

/-- C5 witness: the priority chain evaluated at two concrete records —
one carrying an uppercase sha256, one with no hash, no filename and no
id at all. -/
theorem CompareHVCI.get_driver_signature_priority_witness :
    CompareHVCI.get_driver_signature ⟨some "f.sys", some "id1", some "aa", some "bb", some "CC"⟩ =
      "sha256:" ++ pyLower "CC"
    ∧ CompareHVCI.get_driver_signature ⟨none, none, none, none, none⟩ =
      "file:" ++ (none : Option String).getD "unknown" ++ "_" ++
        (none : Option String).getD "unknown" :=
  ⟨(CompareHVCI.get_driver_signature_priority
      ⟨some "f.sys", some "id1", some "aa", some "bb", some "CC"⟩).1 "CC" rfl (by decide),
   (CompareHVCI.get_driver_signature_priority
      ⟨none, none, none, none, none⟩).2.2.2 (by decide) (by decide) (by decide)⟩

/-- C6: `save_changelog` leaves the stored sequence unchanged when the
formatted diff has zero added, removed and status-change records, and
otherwise appends exactly one `{date, data}` entry at the end: the
length grows by exactly one and every previously stored entry is
unchanged. -/
theorem CompareHVCI.save_changelog_append_only (comparison : CompareHVCI.Comparison)
    (date : String) (existing_changelog : List CompareHVCI.ChangelogEntry) :
    (CompareHVCI.totalChanges (CompareHVCI.format_changes_for_changelog comparison) = 0 →
      CompareHVCI.save_changelog comparison date existing_changelog = existing_changelog)
    ∧ (CompareHVCI.totalChanges (CompareHVCI.format_changes_for_changelog comparison) ≠ 0 →
      CompareHVCI.save_changelog comparison date existing_changelog =
        existing_changelog ++
          [{ date := date, data := CompareHVCI.format_changes_for_changelog comparison }]
      ∧ (CompareHVCI.save_changelog comparison date existing_changelog).length =
          existing_changelog.length + 1
      ∧ ∀ i, i < existing_changelog.length →
          (CompareHVCI.save_changelog comparison date existing_changelog)[i]? =
            existing_changelog[i]?) := by
  constructor
  · intro h
    simp [CompareHVCI.save_changelog, h]
  · intro h
    refine ⟨?_, ?_, ?_⟩
    · simp [CompareHVCI.save_changelog, h]
    · simp [CompareHVCI.save_changelog, h]
    · intro i hi
      simp only [CompareHVCI.save_changelog, if_neg h]
      rw [List.getElem?_append, if_pos hi]

/-- C6 witness: the empty comparison appends nothing; a one-addition
comparison appends exactly its one dated entry after the existing one. -/
theorem CompareHVCI.save_changelog_append_only_witness :
    CompareHVCI.save_changelog ⟨[], [], [], [], [], ⟨0, 0, 0, 0, 0, 0, 0⟩⟩ "08-10-2025"
      [⟨"01-01-2025", ⟨[], [], []⟩⟩] = [⟨"01-01-2025", ⟨[], [], []⟩⟩]
    ∧ CompareHVCI.save_changelog
        ⟨[], [], [⟨some "a.sys", some "id", none, none, some "ff"⟩], [], [],
          ⟨0, 1, 0, 0, 1, 0, 0⟩⟩ "08-10-2025" [⟨"01-01-2025", ⟨[], [], []⟩⟩] =
      [⟨"01-01-2025", ⟨[], [], []⟩⟩] ++
        [{ date := "08-10-2025",
           data := CompareHVCI.format_changes_for_changelog
             ⟨[], [], [⟨some "a.sys", some "id", none, none, some "ff"⟩], [], [],
               ⟨0, 1, 0, 0, 1, 0, 0⟩⟩ }] :=
  ⟨(CompareHVCI.save_changelog_append_only ⟨[], [], [], [], [], ⟨0, 0, 0, 0, 0, 0, 0⟩⟩
      "08-10-2025" [⟨"01-01-2025", ⟨[], [], []⟩⟩]).1 (by decide),
   ((CompareHVCI.save_changelog_append_only
      ⟨[], [], [⟨some "a.sys", some "id", none, none, some "ff"⟩], [], [],
        ⟨0, 1, 0, 0, 1, 0, 0⟩⟩ "08-10-2025" [⟨"01-01-2025", ⟨[], [], []⟩⟩]).2
      (by decide)).1⟩

/-- C8: an unparsable cleaned `FileVersion` (or an unparsable policy
ceiling) makes the version sub-test evaluate to `false` — the
`InvalidVersion` exception is caught locally — and the `FileVersion`
field has no influence on the hash or signer sub-tests, so the
recovery is local to the version sub-test. -/
theorem Byovd.has_blocked_version_fails_open (driver : Byovd.Driver)
    (deny_file_versions file_attribs : List (String × String))
    (deny_hashes : List String) (signer_info : List Byovd.Signer) :
    ((parseVersion (Byovd.cleanVersion (driver.fileVersion.getD "")) = none ∨
      ∀ mv, dictGet deny_file_versions (pyLower (driver.originalFilename.getD "")) = some mv →
        parseVersion mv = none) →
      Byovd.has_blocked_version driver deny_file_versions file_attribs = false)
    ∧ ∀ fv,
      Byovd.has_blocked_hash { driver with fileVersion := fv } deny_hashes =
        Byovd.has_blocked_hash driver deny_hashes
      ∧ Byovd.has_blocked_signer { driver with fileVersion := fv } signer_info file_attribs =
        Byovd.has_blocked_signer driver signer_info file_attribs := by
  constructor
  · intro h
    simp only [Byovd.has_blocked_version]
    by_cases h1 : pyLower (driver.originalFilename.getD "") = ""
    · simp [h1]
    · rw [if_neg h1]
      cases hmv : dictGet deny_file_versions (pyLower (driver.originalFilename.getD "")) with
      | none => rfl
      | some mv =>
        dsimp only
        by_cases h2 : mv = ""
        · rw [if_pos h2]
        · rw [if_neg h2]
          by_cases h3 : driver.fileVersion.getD "" = ""
          · rw [if_pos h3]
          · rw [if_neg h3]
            by_cases h4 : Byovd.cleanVersion (driver.fileVersion.getD "") = ""
            · rw [if_pos h4]
            · rw [if_neg h4]
              rcases h with hc | hm
              · rw [hc]
              · rw [hm mv hmv]
                cases parseVersion (Byovd.cleanVersion (driver.fileVersion.getD "")) <;> rfl
  · exact fun fv => ⟨rfl, rfl⟩

/-- C8 witness: the version string `2.7z` does not parse, so a driver
whose filename is denied up to ceiling `3.0` is still not
version-blocked, while the hash sub-test is untouched by replacing the
version field. -/
theorem Byovd.has_blocked_version_fails_open_witness :
    Byovd.has_blocked_version
      ⟨none, none, none, some "bad.sys", some "2.7z", none, none⟩
      [("bad.sys", "3.0")] [] = false
    ∧ Byovd.has_blocked_hash
        ⟨none, none, none, some "bad.sys", some "9.9", none, none⟩ [] =
      Byovd.has_blocked_hash
        ⟨none, none, none, some "bad.sys", some "2.7z", none, none⟩ [] :=
  ⟨(Byovd.has_blocked_version_fails_open
      ⟨none, none, none, some "bad.sys", some "2.7z", none, none⟩
      [("bad.sys", "3.0")] [] [] []).1 (Or.inl (by decide)),
   ((Byovd.has_blocked_version_fails_open
      ⟨none, none, none, some "bad.sys", some "2.7z", none, none⟩
      [] [] [] []).2 (some "9.9")).1.symm⟩

/-- C2: whenever the driver's lowercased `OriginalFilename` is a key of
`deny_file_versions` (whose keys, as built by `load_policy`, are
non-empty), its cleaned `FileVersion` parses to `dv` and the ceiling
parses to `mv`, the version sub-test returns exactly the dotted-numeric
component-wise comparison `dv <= mv` — so the ceiling is inclusive and
the comparison is numeric, not lexicographic. -/
theorem Byovd.has_blocked_version_iff_le (driver : Byovd.Driver)
    (deny_file_versions file_attribs : List (String × String)) (max_version : String)
    (dv mv : List Nat)
    (hwf : ∀ p ∈ deny_file_versions, p.1 ≠ "")
    (hfound : dictGet deny_file_versions (pyLower (driver.originalFilename.getD "")) =
      some max_version)
    (hdv : parseVersion (Byovd.cleanVersion (driver.fileVersion.getD "")) = some dv)
    (hmv : parseVersion max_version = some mv) :
    Byovd.has_blocked_version driver deny_file_versions file_attribs =
      Byovd.versionLe dv mv := by
  simp only [Byovd.has_blocked_version]
  have h1 : ¬ pyLower (driver.originalFilename.getD "") = "" := by
    intro h
    rw [h] at hfound
    exact hwf _ (dictGet_mem hfound) rfl
  rw [if_neg h1, hfound]
  dsimp only
  have h2 : ¬ max_version = "" := by
    intro h
    rw [h, show parseVersion "" = none from rfl] at hmv
    exact Option.noConfusion hmv
  rw [if_neg h2]
  have h3 : ¬ driver.fileVersion.getD "" = "" := by
    intro h
    rw [h, show Byovd.cleanVersion "" = "" from rfl,
      show parseVersion "" = none from rfl] at hdv
    exact Option.noConfusion hdv
  rw [if_neg h3]
  have h4 : ¬ Byovd.cleanVersion (driver.fileVersion.getD "") = "" := by
    intro h
    rw [h, show parseVersion "" = none from rfl] at hdv
    exact Option.noConfusion hdv
  rw [if_neg h4, hdv, hmv]

/-- C2 witness: the four ceiling examples of the claim — `1.2.3` vs
ceiling `1.2.3` blocked (inclusive), `1.3.0` vs `1.2.3` allowed,
`10.0` vs `9.0` allowed and `9.0` vs `10.0` blocked (numeric, not
lexicographic). -/
theorem Byovd.has_blocked_version_iff_le_witness :
    Byovd.has_blocked_version
      ⟨none, none, none, some "A.sys", some "1.2.3", none, none⟩
      [("a.sys", "1.2.3")] [] = true
    ∧ Byovd.has_blocked_version
      ⟨none, none, none, some "A.sys", some "1.3.0", none, none⟩
      [("a.sys", "1.2.3")] [] = false
    ∧ Byovd.has_blocked_version
      ⟨none, none, none, some "A.sys", some "10.0", none, none⟩
      [("a.sys", "9.0")] [] = false
    ∧ Byovd.has_blocked_version
      ⟨none, none, none, some "A.sys", some "9.0", none, none⟩
      [("a.sys", "10.0")] [] = true :=
  ⟨(Byovd.has_blocked_version_iff_le
      ⟨none, none, none, some "A.sys", some "1.2.3", none, none⟩
      [("a.sys", "1.2.3")] [] "1.2.3" [1, 2, 3] [1, 2, 3]
      (by decide) (by decide) (by decide) (by decide)).trans (by decide),
   (Byovd.has_blocked_version_iff_le
      ⟨none, none, none, some "A.sys", some "1.3.0", none, none⟩
      [("a.sys", "1.2.3")] [] "1.2.3" [1, 3, 0] [1, 2, 3]
      (by decide) (by decide) (by decide) (by decide)).trans (by decide),
   (Byovd.has_blocked_version_iff_le
      ⟨none, none, none, some "A.sys", some "10.0", none, none⟩
      [("a.sys", "9.0")] [] "9.0" [10, 0] [9, 0]
      (by decide) (by decide) (by decide) (by decide)).trans (by decide),
   (Byovd.has_blocked_version_iff_le
      ⟨none, none, none, some "A.sys", some "9.0", none, none⟩
      [("a.sys", "10.0")] [] "10.0" [9, 0] [10, 0]
      (by decide) (by decide) (by decide) (by decide)).trans (by decide)⟩

theorem candOf_congr {o o' : Option String} (h : o'.map pyLower = o.map pyLower) :
    Byovd.candOf o' = Byovd.candOf o := by
  have hp : pyLower (o'.getD "") = pyLower (o.getD "") := by
    cases o' <;> cases o <;> simp_all
  simp only [Byovd.candOf, hp]

/-- C7: the hash sub-test is invariant under letter case on both sides:
replacing the driver's MD5/SHA1/SHA256 and Authentihash values, and the
policy's raw deny-hash attributes, by any strings with the same
lowercasings leaves `has_blocked_hash` (applied to the deny set
`load_policy` builds) unchanged — both sides are lowercased before the
intersection test. -/
theorem Byovd.has_blocked_hash_case_insensitive (d d' : Byovd.Driver)
    (raw raw' : List String)
    (hmd5 : d'.md5.map pyLower = d.md5.map pyLower)
    (hsha1 : d'.sha1.map pyLower = d.sha1.map pyLower)
    (hsha256 : d'.sha256.map pyLower = d.sha256.map pyLower)
    (hauth : d'.authentihash.map Byovd.lowerAuth = d.authentihash.map Byovd.lowerAuth)
    (hraw : raw'.map pyLower = raw.map pyLower) :
    Byovd.has_blocked_hash d' (Byovd.load_policy_deny_hashes raw') =
      Byovd.has_blocked_hash d (Byovd.load_policy_deny_hashes raw) := by
  have e1 := candOf_congr hmd5
  have e2 := candOf_congr hsha1
  have e3 := candOf_congr hsha256
  have hd : Byovd.hashes_to_check d' = Byovd.hashes_to_check d := by
    unfold Byovd.hashes_to_check
    cases hA' : d'.authentihash with
    | none =>
      cases hA : d.authentihash with
      | none =>
        simp only [List.filterMap_cons, List.filterMap_nil, e1, e2, e3]
      | some a =>
        rw [hA', hA] at hauth
        simp at hauth
    | some a' =>
      cases hA : d.authentihash with
      | none =>
        rw [hA', hA] at hauth
        simp at hauth
      | some a =>
        rw [hA', hA] at hauth
        simp only [Option.map_some'] at hauth
        have hla := Option.some.inj hauth
        have f1 := candOf_congr (congrArg Byovd.Authentihash.md5 hla)
        have f2 := candOf_congr (congrArg Byovd.Authentihash.sha1 hla)
        have f3 := candOf_congr (congrArg Byovd.Authentihash.sha256 hla)
        simp only [List.filterMap_cons, List.filterMap_nil, e1, e2, e3, f1, f2, f3]
  have hdeny : Byovd.load_policy_deny_hashes raw' = Byovd.load_policy_deny_hashes raw := by
    have e : ∀ l : List String, Byovd.load_policy_deny_hashes l =
        (l.map pyLower).filterMap (fun x => if x = "" then none else some x) := by
      intro l
      rw [List.filterMap_map]
      rfl
    rw [e, e, hraw]
  unfold Byovd.has_blocked_hash
  rw [hd, hdeny]

/-- C7 witness: an uppercase policy deny hash `ABCD` blocks the driver
carrying the lowercase hash `abcd`, exactly as the all-lowercase pair
does. -/
theorem Byovd.has_blocked_hash_case_insensitive_witness :
    Byovd.has_blocked_hash ⟨some "abcd", none, none, none, none, none, none⟩
        (Byovd.load_policy_deny_hashes ["ABCD"]) =
      Byovd.has_blocked_hash ⟨some "ABCD", none, none, none, none, none, none⟩
        (Byovd.load_policy_deny_hashes ["abcd"])
    ∧ Byovd.has_blocked_hash ⟨some "ABCD", none, none, none, none, none, none⟩
        (Byovd.load_policy_deny_hashes ["abcd"]) = true :=
  ⟨Byovd.has_blocked_hash_case_insensitive
      ⟨some "ABCD", none, none, none, none, none, none⟩
      ⟨some "abcd", none, none, none, none, none, none⟩
      ["abcd"] ["ABCD"] (by decide) (by decide) (by decide) (by decide) (by decide),
   by decide⟩

theorem dictGet_empty_key_none {α : Type} {fa : List (String × α)}
    (hwf : ∀ p ∈ fa, p.1 ≠ "") : dictGet fa "" = none := by
  cases h : dictGet fa "" with
  | none => rfl
  | some v => exact absurd rfl (hwf _ (dictGet_mem h))

theorem ridMatch_resolved_iff {fa : List (String × String)}
    (hwf : ∀ p ∈ fa, p.1 ≠ "" ∧ p.2 ≠ "") (ofn : String) (refs : List String) :
    Byovd.ridMatch (if ofn = "" then none else dictGet fa ofn) refs = true ↔
      ∃ rid, dictGet fa ofn = some rid ∧ rid ∈ refs := by
  by_cases h0 : ofn = ""
  · rw [if_pos h0, h0, dictGet_empty_key_none (fun p hp => (hwf p hp).1)]
    simp [Byovd.ridMatch]
  · rw [if_neg h0]
    cases hg : dictGet fa ofn with
    | none => simp [Byovd.ridMatch]
    | some rid =>
      have hne : rid ≠ "" := (hwf _ (dictGet_mem hg)).2
      simp [Byovd.ridMatch, hne, contains_iff_mem]

theorem sigHit_eq_true_iff (fid : Option String) (si : List Byovd.Signer)
    (sg : Byovd.Signature) :
    Byovd.sigHit fid si sg = true ↔
      ∃ certs, sg.certificates = some certs ∧
        ∃ cert ∈ certs, Byovd.certHit fid si cert = true := by
  cases h : sg.certificates <;> simp [Byovd.sigHit, h, List.any_eq_true]

theorem certHit_eq_true_iff (fid : Option String) (si : List Byovd.Signer)
    (cert : Byovd.Certificate) :
    Byovd.certHit fid si cert = true ↔
      ∃ tbs, cert.tbs = some tbs ∧
        ∃ h ∈ Byovd.tbsHashes tbs, ∃ signer ∈ si,
          Byovd.signerHit h fid signer = true := by
  cases h : cert.tbs <;> simp [Byovd.certHit, h, List.any_eq_true]

/-- C3: for a driver carrying a `Signatures` sequence and a
`file_attribs` table with the shape `load_policy` builds (non-empty
filenames mapped to non-empty rule ids), the signer sub-test is true
exactly when some certificate's lowercased TBS hash (MD5, SHA1, SHA256
or SHA384) occurs in some signer's `cert_roots` and that signer either
has empty `file_attrib_refs` — blocking on the cert match regardless of
filename — or the driver's lowercased `OriginalFilename` resolves
through `file_attribs` to a rule id contained in the signer's
`file_attrib_refs`. -/
theorem Byovd.has_blocked_signer_iff (driver : Byovd.Driver)
    (signer_info : List Byovd.Signer) (file_attribs : List (String × String))
    (sigs : List Byovd.Signature)
    (hsig : driver.signatures = some sigs)
    (hwf : ∀ p ∈ file_attribs, p.1 ≠ "" ∧ p.2 ≠ "") :
    Byovd.has_blocked_signer driver signer_info file_attribs = true ↔
      ∃ sg ∈ sigs, ∃ certs, sg.certificates = some certs ∧
        ∃ cert ∈ certs, ∃ tbs, cert.tbs = some tbs ∧
          ∃ h ∈ Byovd.tbsHashes tbs, ∃ signer ∈ signer_info,
            h ∈ signer.cert_roots ∧
              (signer.file_attrib_refs = [] ∨
                ∃ rid, dictGet file_attribs (pyLower (driver.originalFilename.getD "")) =
                    some rid ∧
                  rid ∈ signer.file_attrib_refs) := by
  unfold Byovd.has_blocked_signer
  rw [hsig]
  dsimp only
  simp only [List.any_eq_true, sigHit_eq_true_iff, certHit_eq_true_iff, Byovd.signerHit,
    Bool.and_eq_true, Bool.or_eq_true, ridMatch_resolved_iff hwf, contains_iff_mem,
    List.isEmpty_iff]

/-- C3 witness: a driver signed with a certificate whose SHA1 TBS hash
`AB` matches the unscoped signer `ab` is signer-blocked even with an
empty `file_attribs` table and no filename. -/
theorem Byovd.has_blocked_signer_iff_witness :
    ∃ sg ∈ [(⟨some [⟨some ⟨none, some "AB", none, none⟩⟩]⟩ : Byovd.Signature)],
      ∃ certs, sg.certificates = some certs ∧
        ∃ cert ∈ certs, ∃ tbs, cert.tbs = some tbs ∧
          ∃ h ∈ Byovd.tbsHashes tbs, ∃ signer ∈ [(⟨["ab"], []⟩ : Byovd.Signer)],
            h ∈ signer.cert_roots ∧
              (signer.file_attrib_refs = [] ∨
                ∃ rid, dictGet ([] : List (String × String))
                    (pyLower ((⟨none, none, none, none, none, none,
                      some [⟨some [⟨some ⟨none, some "AB", none, none⟩⟩]⟩]⟩ :
                        Byovd.Driver).originalFilename.getD "")) = some rid ∧
                  rid ∈ signer.file_attrib_refs) :=
  (Byovd.has_blocked_signer_iff
    ⟨none, none, none, none, none, none,
      some [⟨some [⟨some ⟨none, some "AB", none, none⟩⟩]⟩]⟩
    [⟨["ab"], []⟩] [] [⟨some [⟨some ⟨none, some "AB", none, none⟩⟩]⟩]
    rfl (by decide)).mp (by decide)

theorem pyLower_getD_congr {o o' : Option String} (h : o'.map pyLower = o.map pyLower) :
    pyLower (o'.getD "") = pyLower (o.getD "") := by
  cases o' <;> cases o <;> simp_all

theorem truthy_congr {o o' : Option String} (h : o'.map pyLower = o.map pyLower) :
    truthy o' = truthy o := by
  cases o' with
  | none =>
    cases o with
    | none => rfl
    | some s => simp at h
  | some s' =>
    cases o with
    | none => simp at h
    | some s =>
      simp only [Option.map_some'] at h
      have h2 := Option.some.inj h
      simp only [truthy, Option.getD_some]
      by_cases hs : s = ""
      · have hs' : s' = "" := pyLower_eq_empty_iff.mp (by rw [h2, hs]; rfl)
        rw [hs, hs']
      · have hs' : s' ≠ "" := fun e => hs (pyLower_eq_empty_iff.mp (by rw [← h2, e]; rfl))
        have b1 : (s' != "") = true := by simp [hs']
        have b2 : (s != "") = true := by simp [hs]
        rw [b1, b2]

theorem pyLower_length {s t : String} (h : pyLower s = pyLower t) :
    s.data.length = t.data.length := by
  have := congrArg (fun u : String => u.data.length) h
  simpa [pyLower_data] using this

/-- C10: the reconciliation key is case-insensitive in the hash fields
— replacing sha256/sha1/md5 by strings with the same lowercasings keeps
`get_driver_signature` unchanged — but the synthetic `file:` fallback
embeds `filename` and `driver_id` verbatim, so two hash-less records
that differ only in the letter case of the filename (or of the
driver id) receive unequal signatures and count as distinct identities. -/
theorem CompareHVCI.get_driver_signature_case_behavior (d d' : CompareHVCI.Driver) :
    (d'.sha256.map pyLower = d.sha256.map pyLower →
      d'.sha1.map pyLower = d.sha1.map pyLower →
      d'.md5.map pyLower = d.md5.map pyLower →
      d'.filename = d.filename → d'.driver_id = d.driver_id →
      CompareHVCI.get_driver_signature d' = CompareHVCI.get_driver_signature d)
    ∧ (truthy d.sha256 = false → truthy d.sha1 = false → truthy d.md5 = false →
      truthy d'.sha256 = false → truthy d'.sha1 = false → truthy d'.md5 = false →
      (d.filename.getD "unknown" ≠ d'.filename.getD "unknown" →
        pyLower (d.filename.getD "unknown") = pyLower (d'.filename.getD "unknown") →
        d.driver_id = d'.driver_id →
        CompareHVCI.get_driver_signature d ≠ CompareHVCI.get_driver_signature d')
      ∧ (d.filename = d'.filename →
        d.driver_id.getD "unknown" ≠ d'.driver_id.getD "unknown" →
        CompareHVCI.get_driver_signature d ≠ CompareHVCI.get_driver_signature d')) := by
  constructor
  · intro h256 h1 h5 hfn hid
    have t256 := truthy_congr h256
    have t1 := truthy_congr h1
    have t5 := truthy_congr h5
    unfold CompareHVCI.get_driver_signature
    rw [t256, t1, t5, hfn, hid, pyLower_getD_congr h256, pyLower_getD_congr h1,
      pyLower_getD_congr h5]
  · intro hd256 hd1 hd5 he256 he1 he5
    have e1 : CompareHVCI.get_driver_signature d =
        "file:" ++ d.filename.getD "unknown" ++ "_" ++ d.driver_id.getD "unknown" := by
      simp [CompareHVCI.get_driver_signature, hd256, hd1, hd5]
    have e2 : CompareHVCI.get_driver_signature d' =
        "file:" ++ d'.filename.getD "unknown" ++ "_" ++ d'.driver_id.getD "unknown" := by
      simp [CompareHVCI.get_driver_signature, he256, he1, he5]
    constructor
    · intro hneq hlow hids heq
      rw [e1, e2, ← hids] at heq
      have hdata := string_eq_iff_data.mp heq
      simp only [string_append_data, List.append_assoc] at hdata
      have h2 := List.append_cancel_left hdata
      have hlen : (d.filename.getD "unknown").data.length =
          (d'.filename.getD "unknown").data.length := pyLower_length hlow
      have h3 := (List.append_inj h2 hlen).1
      exact hneq (string_eq_iff_data.mpr h3)
    · intro hfn hneq heq
      rw [e1, e2, ← hfn] at heq
      have hdata := string_eq_iff_data.mp heq
      simp only [string_append_data, List.append_assoc] at hdata
      have h2 := List.append_cancel_left (List.append_cancel_left
        (List.append_cancel_left hdata))
      exact hneq (string_eq_iff_data.mpr h2)

/-- C10 witness: an uppercase sha256 yields the same signature as its
lowercase form, while two hash-less records whose filenames differ only
in case get different signatures. -/
theorem CompareHVCI.get_driver_signature_case_behavior_witness :
    CompareHVCI.get_driver_signature ⟨some "x.sys", some "id", none, none, some "AB"⟩ =
      CompareHVCI.get_driver_signature ⟨some "x.sys", some "id", none, none, some "ab"⟩
    ∧ CompareHVCI.get_driver_signature ⟨some "X.sys", some "id", none, none, none⟩ ≠
      CompareHVCI.get_driver_signature ⟨some "x.sys", some "id", none, none, none⟩ :=
  ⟨(CompareHVCI.get_driver_signature_case_behavior
      ⟨some "x.sys", some "id", none, none, some "ab"⟩
      ⟨some "x.sys", some "id", none, none, some "AB"⟩).1
      (by decide) (by decide) (by decide) (by decide) (by decide),
   ((CompareHVCI.get_driver_signature_case_behavior
      ⟨some "X.sys", some "id", none, none, none⟩
      ⟨some "x.sys", some "id", none, none, none⟩).2
      (by decide) (by decide) (by decide) (by decide) (by decide) (by decide)).1
      (by decide) (by decide) (by decide)⟩

theorem contains_eq_false_iff {l : List String} {s : String} :
    l.contains s = false ↔ s ∉ l := by
  constructor
  · intro h hm
    rw [contains_iff_mem.mpr hm] at h
    cases h
  · intro h
    cases hc : l.contains s
    · rfl
    · exact absurd (contains_iff_mem.mp hc) h

theorem contains_ne_iff {l₁ l₂ : List String} {s : String} :
    l₁.contains s ≠ l₂.contains s ↔ ¬ (s ∈ l₁ ↔ s ∈ l₂) := by
  cases h1 : l₁.contains s <;> cases h2 : l₂.contains s <;>
    simp_all [contains_iff_mem, contains_eq_false_iff]

theorem ite_opt_eq_some_pos {c : Prop} [Decidable c] {α : Type} {o : Option α} {v : α} :
    ((if c then o else none) = some v) ↔ c ∧ o = some v := by
  by_cases h : c
  · simp [h]
  · simp [h]

theorem ite_opt_eq_some_neg {c : Prop} [Decidable c] {α : Type} {o : Option α} {v : α} :
    ((if c then none else o) = some v) ↔ ¬ c ∧ o = some v := by
  by_cases h : c
  · simp [h]
  · simp [h]

namespace CompareHVCI

/-- C4: membership characterization of the five outputs of
`compare_drivers`.  A record is in `removed_allowed`/`removed_blocked`
exactly when it is the record stored at a signature of the old
allowed-union-blocked map that is absent from the new union,
partitioned by membership of the signature in the old allowed map;
`added_allowed`/`added_blocked` symmetrically with old and new swapped;
`status_changes` holds exactly the records built from signatures
present in both unions whose allowed-map membership differs, each
carrying the new union's record plus the two status labels. -/
theorem compare_drivers_partition (old_data new_data : ResultsData) :
    (∀ driver, driver ∈ (compare_drivers old_data new_data).removed_allowed ↔
      ∃ s, dictGet (pyUnion (create_driver_map old_data.allowed_drivers)
          (create_driver_map old_data.blocked_drivers)) s = some driver ∧
        s ∉ dictKeys (pyUnion (create_driver_map new_data.allowed_drivers)
          (create_driver_map new_data.blocked_drivers)) ∧
        s ∈ dictKeys (create_driver_map old_data.allowed_drivers))
    ∧ (∀ driver, driver ∈ (compare_drivers old_data new_data).removed_blocked ↔
      ∃ s, dictGet (pyUnion (create_driver_map old_data.allowed_drivers)
          (create_driver_map old_data.blocked_drivers)) s = some driver ∧
        s ∉ dictKeys (pyUnion (create_driver_map new_data.allowed_drivers)
          (create_driver_map new_data.blocked_drivers)) ∧
        s ∉ dictKeys (create_driver_map old_data.allowed_drivers))
    ∧ (∀ driver, driver ∈ (compare_drivers old_data new_data).added_allowed ↔
      ∃ s, dictGet (pyUnion (create_driver_map new_data.allowed_drivers)
          (create_driver_map new_data.blocked_drivers)) s = some driver ∧
        s ∉ dictKeys (pyUnion (create_driver_map old_data.allowed_drivers)
          (create_driver_map old_data.blocked_drivers)) ∧
        s ∈ dictKeys (create_driver_map new_data.allowed_drivers))
    ∧ (∀ driver, driver ∈ (compare_drivers old_data new_data).added_blocked ↔
      ∃ s, dictGet (pyUnion (create_driver_map new_data.allowed_drivers)
          (create_driver_map new_data.blocked_drivers)) s = some driver ∧
        s ∉ dictKeys (pyUnion (create_driver_map old_data.allowed_drivers)
          (create_driver_map old_data.blocked_drivers)) ∧
        s ∉ dictKeys (create_driver_map new_data.allowed_drivers))
    ∧ (∀ change, change ∈ (compare_drivers old_data new_data).status_changes ↔
      ∃ s new_driver,
        dictGet (pyUnion (create_driver_map new_data.allowed_drivers)
          (create_driver_map new_data.blocked_drivers)) s = some new_driver ∧
        s ∈ dictKeys (pyUnion (create_driver_map old_data.allowed_drivers)
          (create_driver_map old_data.blocked_drivers)) ∧
        ¬ (s ∈ dictKeys (create_driver_map old_data.allowed_drivers) ↔
           s ∈ dictKeys (create_driver_map new_data.allowed_drivers)) ∧
        change = { driver := new_driver
                   old_status :=
                     if s ∈ dictKeys (create_driver_map old_data.allowed_drivers) then
                       "allowed" else "blocked"
                   new_status :=
                     if s ∈ dictKeys (create_driver_map new_data.allowed_drivers) then
                       "allowed" else "blocked" }) := by
  simp only [compare_drivers]
  refine ⟨?_, ?_, ?_, ?_, ?_⟩
  · intro driver
    rw [List.mem_filterMap]
    constructor
    · rintro ⟨s, hs, hv⟩
      rw [List.mem_filter] at hs
      rw [ite_opt_eq_some_pos] at hv
      refine ⟨s, hv.2, ?_, contains_iff_mem.mp hv.1⟩
      have h2 := hs.2
      rw [Bool.not_eq_true'] at h2
      exact contains_eq_false_iff.mp h2
    · rintro ⟨s, hget, hnew, hold⟩
      refine ⟨s, ?_, ?_⟩
      · rw [List.mem_filter]
        refine ⟨(dictGet_isSome_iff_mem _ _).mp (by rw [hget]; rfl), ?_⟩
        rw [Bool.not_eq_true']
        exact contains_eq_false_iff.mpr hnew
      · rw [ite_opt_eq_some_pos]
        exact ⟨contains_iff_mem.mpr hold, hget⟩
  · intro driver
    rw [List.mem_filterMap]
    constructor
    · rintro ⟨s, hs, hv⟩
      rw [List.mem_filter] at hs
      rw [ite_opt_eq_some_neg] at hv
      refine ⟨s, hv.2, ?_, fun hm => hv.1 (contains_iff_mem.mpr hm)⟩
      have h2 := hs.2
      rw [Bool.not_eq_true'] at h2
      exact contains_eq_false_iff.mp h2
    · rintro ⟨s, hget, hnew, hold⟩
      refine ⟨s, ?_, ?_⟩
      · rw [List.mem_filter]
        refine ⟨(dictGet_isSome_iff_mem _ _).mp (by rw [hget]; rfl), ?_⟩
        rw [Bool.not_eq_true']
        exact contains_eq_false_iff.mpr hnew
      · rw [ite_opt_eq_some_neg]
        exact ⟨fun hc => hold (contains_iff_mem.mp hc), hget⟩
  · intro driver
    rw [List.mem_filterMap]
    constructor
    · rintro ⟨s, hs, hv⟩
      rw [List.mem_filter] at hs
      rw [ite_opt_eq_some_pos] at hv
      refine ⟨s, hv.2, ?_, contains_iff_mem.mp hv.1⟩
      have h2 := hs.2
      rw [Bool.not_eq_true'] at h2
      exact contains_eq_false_iff.mp h2
    · rintro ⟨s, hget, hold, hnew⟩
      refine ⟨s, ?_, ?_⟩
      · rw [List.mem_filter]
        refine ⟨(dictGet_isSome_iff_mem _ _).mp (by rw [hget]; rfl), ?_⟩
        rw [Bool.not_eq_true']
        exact contains_eq_false_iff.mpr hold
      · rw [ite_opt_eq_some_pos]
        exact ⟨contains_iff_mem.mpr hnew, hget⟩
  · intro driver
    rw [List.mem_filterMap]
    constructor
    · rintro ⟨s, hs, hv⟩
      rw [List.mem_filter] at hs
      rw [ite_opt_eq_some_neg] at hv
      refine ⟨s, hv.2, ?_, fun hm => hv.1 (contains_iff_mem.mpr hm)⟩
      have h2 := hs.2
      rw [Bool.not_eq_true'] at h2
      exact contains_eq_false_iff.mp h2
    · rintro ⟨s, hget, hold, hnew⟩
      refine ⟨s, ?_, ?_⟩
      · rw [List.mem_filter]
        refine ⟨(dictGet_isSome_iff_mem _ _).mp (by rw [hget]; rfl), ?_⟩
        rw [Bool.not_eq_true']
        exact contains_eq_false_iff.mpr hold
      · rw [ite_opt_eq_some_neg]
        exact ⟨fun hc => hnew (contains_iff_mem.mp hc), hget⟩
  · intro change
    rw [List.mem_filterMap]
    constructor
    · rintro ⟨s, hs, hv⟩
      rw [List.mem_filter] at hs
      rw [Option.bind_eq_some] at hv
      obtain ⟨nd, hget, hv2⟩ := hv
      rw [ite_opt_eq_some_pos] at hv2
      obtain ⟨hne, hrec⟩ := hv2
      rw [bne_iff_ne] at hne
      refine ⟨s, nd, hget, hs.1, contains_ne_iff.mp hne, ?_⟩
      have e1 : (if (dictKeys (create_driver_map old_data.allowed_drivers)).contains s = true
          then "allowed" else "blocked") =
          (if s ∈ dictKeys (create_driver_map old_data.allowed_drivers) then
            "allowed" else "blocked") := if_congr contains_iff_mem rfl rfl
      have e2 : (if (dictKeys (create_driver_map new_data.allowed_drivers)).contains s = true
          then "allowed" else "blocked") =
          (if s ∈ dictKeys (create_driver_map new_data.allowed_drivers) then
            "allowed" else "blocked") := if_congr contains_iff_mem rfl rfl
      rw [← Option.some.inj hrec, e1, e2]
    · rintro ⟨s, nd, hget, hold, hne, hrec⟩
      refine ⟨s, ?_, ?_⟩
      · rw [List.mem_filter]
        exact ⟨hold, contains_iff_mem.mpr ((dictGet_isSome_iff_mem _ _).mp (by rw [hget]; rfl))⟩
      · rw [Option.bind_eq_some]
        refine ⟨nd, hget, ?_⟩
        rw [ite_opt_eq_some_pos]
        refine ⟨bne_iff_ne.mpr (contains_ne_iff.mpr hne), ?_⟩
        have e1 : (if (dictKeys (create_driver_map old_data.allowed_drivers)).contains s = true
            then "allowed" else "blocked") =
            (if s ∈ dictKeys (create_driver_map old_data.allowed_drivers) then
              "allowed" else "blocked") := if_congr contains_iff_mem rfl rfl
        have e2 : (if (dictKeys (create_driver_map new_data.allowed_drivers)).contains s = true
            then "allowed" else "blocked") =
            (if s ∈ dictKeys (create_driver_map new_data.allowed_drivers) then
              "allowed" else "blocked") := if_congr contains_iff_mem rfl rfl
        rw [hrec, e1, e2]

end CompareHVCI

/-- C4 witness: with an old snapshot holding one allowed driver and an
empty new snapshot, that driver appears in `removed_allowed`. -/
theorem CompareHVCI.compare_drivers_partition_witness :
    (⟨some "a", some "b", none, none, none⟩ : CompareHVCI.Driver) ∈
      (CompareHVCI.compare_drivers
        ⟨[⟨some "a", some "b", none, none, none⟩], []⟩ ⟨[], []⟩).removed_allowed :=
  ((CompareHVCI.compare_drivers_partition
      ⟨[⟨some "a", some "b", none, none, none⟩], []⟩ ⟨[], []⟩).1
    ⟨some "a", some "b", none, none, none⟩).mpr
    ⟨"file:a_b", by decide, by decide, by decide⟩

namespace CompareHVCI

theorem dictGet_create_driver_map (drivers : List Driver) (s : String) :
    dictGet (create_driver_map drivers) s =
      drivers.reverse.find? (fun driver => get_driver_signature driver == s) := by
  have h := dictGet_foldl_insert get_driver_signature (fun d => d) drivers [] s
  refine Eq.trans h ?_
  cases drivers.reverse.find? (fun driver => get_driver_signature driver == s) <;> rfl

theorem mem_keys_create_driver_map (drivers : List Driver) (s : String) :
    s ∈ dictKeys (create_driver_map drivers) ↔ s ∈ drivers.map get_driver_signature := by
  have h := mem_dictKeys_foldl_insert get_driver_signature (fun d => d) drivers [] s
  exact h.trans (by simp [dictKeys])

theorem mem_keys_pyUnion {α : Type} (a b : List (String × α)) (s : String) :
    s ∈ dictKeys (pyUnion a b) ↔ s ∈ dictKeys a ∨ s ∈ dictKeys b :=
  mem_dictKeys_foldl_insert Prod.fst Prod.snd b a s

theorem nodup_keys_create_driver_map (drivers : List Driver) :
    (dictKeys (create_driver_map drivers)).Nodup :=
  nodup_dictKeys_foldl_insert get_driver_signature (fun d => d) drivers []
    (by simp [dictKeys])

theorem nodup_keys_pyUnion {α : Type} (a b : List (String × α))
    (h : (dictKeys a).Nodup) : (dictKeys (pyUnion a b)).Nodup :=
  nodup_dictKeys_foldl_insert Prod.fst Prod.snd b a h

end CompareHVCI

theorem length_filterMap_eq_length_filter {α β : Type} (l : List α) (F : α → Option β)
    (p : α → Bool) (h : ∀ s ∈ l, (F s).isSome = p s) :
    (l.filterMap F).length = (l.filter p).length := by
  induction l with
  | nil => rfl
  | cons a as ih =>
    have ha := h a (List.mem_cons_self a as)
    have ih2 := ih (fun s hs => h s (List.mem_cons_of_mem _ hs))
    cases hF : F a with
    | none =>
      have hp : p a = false := by rw [← ha, hF]; rfl
      rw [List.filterMap_cons, List.filter_cons, hF, hp]
      simpa using ih2
    | some b =>
      have hp : p a = true := by rw [← ha, hF]; rfl
      rw [List.filterMap_cons, List.filter_cons, hF, hp]
      simp [ih2]

theorem length_filter_eq_card {l : List String} (hn : l.Nodup) (p : String → Bool)
    (t : Finset String) (ht : ∀ s, s ∈ l ∧ p s = true ↔ s ∈ t) :
    (l.filter p).length = t.card := by
  have h1 : (l.filter p).Nodup := hn.filter p
  rw [← List.toFinset_card_of_nodup h1]
  congr 1
  apply Finset.ext
  intro s
  rw [List.mem_toFinset, List.mem_filter]
  exact ht s

namespace CompareHVCI

theorem total_removed_eq_card (old_data new_data : ResultsData) :
    (compare_drivers old_data new_data).summary.total_removed =
      (sigFinset (allDrivers old_data) \ sigFinset (allDrivers new_data)).card := by
  have base : (compare_drivers old_data new_data).summary.total_removed =
      ((dictKeys (pyUnion (create_driver_map old_data.allowed_drivers)
          (create_driver_map old_data.blocked_drivers))).filter
        (fun s => !(dictKeys (pyUnion (create_driver_map new_data.allowed_drivers)
          (create_driver_map new_data.blocked_drivers))).contains s)).length := rfl
  rw [base]
  apply length_filter_eq_card (nodup_keys_pyUnion _ _ (nodup_keys_create_driver_map _))
  intro s
  simp only [Bool.not_eq_true', contains_eq_false_iff, mem_keys_pyUnion,
    mem_keys_create_driver_map, Finset.mem_sdiff, sigFinset, allDrivers,
    List.mem_toFinset, List.map_append, List.mem_append]

theorem total_added_eq_card (old_data new_data : ResultsData) :
    (compare_drivers old_data new_data).summary.total_added =
      (sigFinset (allDrivers new_data) \ sigFinset (allDrivers old_data)).card := by
  have base : (compare_drivers old_data new_data).summary.total_added =
      ((dictKeys (pyUnion (create_driver_map new_data.allowed_drivers)
          (create_driver_map new_data.blocked_drivers))).filter
        (fun s => !(dictKeys (pyUnion (create_driver_map old_data.allowed_drivers)
          (create_driver_map old_data.blocked_drivers))).contains s)).length := rfl
  rw [base]
  apply length_filter_eq_card (nodup_keys_pyUnion _ _ (nodup_keys_create_driver_map _))
  intro s
  simp only [Bool.not_eq_true', contains_eq_false_iff, mem_keys_pyUnion,
    mem_keys_create_driver_map, Finset.mem_sdiff, sigFinset, allDrivers,
    List.mem_toFinset, List.map_append, List.mem_append]

theorem removed_allowed_count_eq_card (old_data new_data : ResultsData) :
    (compare_drivers old_data new_data).summary.removed_allowed_count =
      ((sigFinset (allDrivers old_data) \ sigFinset (allDrivers new_data)).filter
        (fun s => s ∈ sigFinset old_data.allowed_drivers)).card := by
  have base : (compare_drivers old_data new_data).summary.removed_allowed_count =
      (((dictKeys (pyUnion (create_driver_map old_data.allowed_drivers)
          (create_driver_map old_data.blocked_drivers))).filter
        (fun s => !(dictKeys (pyUnion (create_driver_map new_data.allowed_drivers)
          (create_driver_map new_data.blocked_drivers))).contains s)).filterMap
        (fun s => if (dictKeys (create_driver_map old_data.allowed_drivers)).contains s then
          dictGet (pyUnion (create_driver_map old_data.allowed_drivers)
            (create_driver_map old_data.blocked_drivers)) s else none)).length := rfl
  rw [base]
  rw [length_filterMap_eq_length_filter _ _
    (fun s => (dictKeys (create_driver_map old_data.allowed_drivers)).contains s) ?hsome]
  case hsome =>
    intro s hs
    dsimp only
    rw [List.mem_filter] at hs
    cases hc : (dictKeys (create_driver_map old_data.allowed_drivers)).contains s
    · simp
    · simp [(dictGet_isSome_iff_mem _ _).mpr hs.1]
  apply length_filter_eq_card
    ((nodup_keys_pyUnion _ _ (nodup_keys_create_driver_map _)).filter _)
  intro s
  simp only [List.mem_filter, Bool.not_eq_true', contains_eq_false_iff, contains_iff_mem,
    mem_keys_pyUnion, mem_keys_create_driver_map, Finset.mem_filter, Finset.mem_sdiff,
    sigFinset, allDrivers, List.mem_toFinset, List.map_append, List.mem_append]

theorem removed_blocked_count_eq_card (old_data new_data : ResultsData) :
    (compare_drivers old_data new_data).summary.removed_blocked_count =
      ((sigFinset (allDrivers old_data) \ sigFinset (allDrivers new_data)).filter
        (fun s => s ∉ sigFinset old_data.allowed_drivers)).card := by
  have base : (compare_drivers old_data new_data).summary.removed_blocked_count =
      (((dictKeys (pyUnion (create_driver_map old_data.allowed_drivers)
          (create_driver_map old_data.blocked_drivers))).filter
        (fun s => !(dictKeys (pyUnion (create_driver_map new_data.allowed_drivers)
          (create_driver_map new_data.blocked_drivers))).contains s)).filterMap
        (fun s => if (dictKeys (create_driver_map old_data.allowed_drivers)).contains s then
          none else dictGet (pyUnion (create_driver_map old_data.allowed_drivers)
            (create_driver_map old_data.blocked_drivers)) s)).length := rfl
  rw [base]
  rw [length_filterMap_eq_length_filter _ _
    (fun s => !(dictKeys (create_driver_map old_data.allowed_drivers)).contains s) ?hsome]
  case hsome =>
    intro s hs
    dsimp only
    rw [List.mem_filter] at hs
    cases hc : (dictKeys (create_driver_map old_data.allowed_drivers)).contains s
    · simp [(dictGet_isSome_iff_mem _ _).mpr hs.1]
    · simp
  apply length_filter_eq_card
    ((nodup_keys_pyUnion _ _ (nodup_keys_create_driver_map _)).filter _)
  intro s
  simp only [List.mem_filter, Bool.not_eq_true', contains_eq_false_iff, contains_iff_mem,
    mem_keys_pyUnion, mem_keys_create_driver_map, Finset.mem_filter, Finset.mem_sdiff,
    sigFinset, allDrivers, List.mem_toFinset, List.map_append, List.mem_append]

theorem added_allowed_count_eq_card (old_data new_data : ResultsData) :
    (compare_drivers old_data new_data).summary.added_allowed_count =
      ((sigFinset (allDrivers new_data) \ sigFinset (allDrivers old_data)).filter
        (fun s => s ∈ sigFinset new_data.allowed_drivers)).card := by
  have base : (compare_drivers old_data new_data).summary.added_allowed_count =
      (((dictKeys (pyUnion (create_driver_map new_data.allowed_drivers)
          (create_driver_map new_data.blocked_drivers))).filter
        (fun s => !(dictKeys (pyUnion (create_driver_map old_data.allowed_drivers)
          (create_driver_map old_data.blocked_drivers))).contains s)).filterMap
        (fun s => if (dictKeys (create_driver_map new_data.allowed_drivers)).contains s then
          dictGet (pyUnion (create_driver_map new_data.allowed_drivers)
            (create_driver_map new_data.blocked_drivers)) s else none)).length := rfl
  rw [base]
  rw [length_filterMap_eq_length_filter _ _
    (fun s => (dictKeys (create_driver_map new_data.allowed_drivers)).contains s) ?hsome]
  case hsome =>
    intro s hs
    dsimp only
    rw [List.mem_filter] at hs
    cases hc : (dictKeys (create_driver_map new_data.allowed_drivers)).contains s
    · simp
    · simp [(dictGet_isSome_iff_mem _ _).mpr hs.1]
  apply length_filter_eq_card
    ((nodup_keys_pyUnion _ _ (nodup_keys_create_driver_map _)).filter _)
  intro s
  simp only [List.mem_filter, Bool.not_eq_true', contains_eq_false_iff, contains_iff_mem,
    mem_keys_pyUnion, mem_keys_create_driver_map, Finset.mem_filter, Finset.mem_sdiff,
    sigFinset, allDrivers, List.mem_toFinset, List.map_append, List.mem_append]

theorem added_blocked_count_eq_card (old_data new_data : ResultsData) :
    (compare_drivers old_data new_data).summary.added_blocked_count =
      ((sigFinset (allDrivers new_data) \ sigFinset (allDrivers old_data)).filter
        (fun s => s ∉ sigFinset new_data.allowed_drivers)).card := by
  have base : (compare_drivers old_data new_data).summary.added_blocked_count =
      (((dictKeys (pyUnion (create_driver_map new_data.allowed_drivers)
          (create_driver_map new_data.blocked_drivers))).filter
        (fun s => !(dictKeys (pyUnion (create_driver_map old_data.allowed_drivers)
          (create_driver_map old_data.blocked_drivers))).contains s)).filterMap
        (fun s => if (dictKeys (create_driver_map new_data.allowed_drivers)).contains s then
          none else dictGet (pyUnion (create_driver_map new_data.allowed_drivers)
            (create_driver_map new_data.blocked_drivers)) s)).length := rfl
  rw [base]
  rw [length_filterMap_eq_length_filter _ _
    (fun s => !(dictKeys (create_driver_map new_data.allowed_drivers)).contains s) ?hsome]
  case hsome =>
    intro s hs
    dsimp only
    rw [List.mem_filter] at hs
    cases hc : (dictKeys (create_driver_map new_data.allowed_drivers)).contains s
    · simp [(dictGet_isSome_iff_mem _ _).mpr hs.1]
    · simp
  apply length_filter_eq_card
    ((nodup_keys_pyUnion _ _ (nodup_keys_create_driver_map _)).filter _)
  intro s
  simp only [List.mem_filter, Bool.not_eq_true', contains_eq_false_iff, contains_iff_mem,
    mem_keys_pyUnion, mem_keys_create_driver_map, Finset.mem_filter, Finset.mem_sdiff,
    sigFinset, allDrivers, List.mem_toFinset, List.map_append, List.mem_append]

theorem status_changes_count_eq_card (old_data new_data : ResultsData) :
    (compare_drivers old_data new_data).summary.status_changes_count =
      ((sigFinset (allDrivers old_data) ∩ sigFinset (allDrivers new_data)).filter
        (fun s => ¬ (s ∈ sigFinset old_data.allowed_drivers ↔
          s ∈ sigFinset new_data.allowed_drivers))).card := by
  have base : (compare_drivers old_data new_data).summary.status_changes_count =
      (((dictKeys (pyUnion (create_driver_map old_data.allowed_drivers)
          (create_driver_map old_data.blocked_drivers))).filter
        (fun s => (dictKeys (pyUnion (create_driver_map new_data.allowed_drivers)
          (create_driver_map new_data.blocked_drivers))).contains s)).filterMap
        (fun s => (dictGet (pyUnion (create_driver_map new_data.allowed_drivers)
            (create_driver_map new_data.blocked_drivers)) s).bind
          (fun new_driver =>
            if ((dictKeys (create_driver_map old_data.allowed_drivers)).contains s !=
                (dictKeys (create_driver_map new_data.allowed_drivers)).contains s) then
              some (⟨new_driver,
                if (dictKeys (create_driver_map old_data.allowed_drivers)).contains s
                then "allowed" else "blocked",
                if (dictKeys (create_driver_map new_data.allowed_drivers)).contains s
                then "allowed" else "blocked"⟩ : StatusChange)
            else none))).length := rfl
  rw [base]
  rw [length_filterMap_eq_length_filter _ _
    (fun s => ((dictKeys (create_driver_map old_data.allowed_drivers)).contains s !=
      (dictKeys (create_driver_map new_data.allowed_drivers)).contains s)) ?hsome]
  case hsome =>
    intro s hs
    dsimp only
    rw [List.mem_filter] at hs
    obtain ⟨v, hv⟩ := Option.isSome_iff_exists.mp
      ((dictGet_isSome_iff_mem _ _).mpr (contains_iff_mem.mp hs.2))
    rw [hv]
    cases hc : ((dictKeys (create_driver_map old_data.allowed_drivers)).contains s !=
        (dictKeys (create_driver_map new_data.allowed_drivers)).contains s)
    · simp
    · simp
  apply length_filter_eq_card
    ((nodup_keys_pyUnion _ _ (nodup_keys_create_driver_map _)).filter _)
  intro s
  simp only [List.mem_filter, bne_iff_ne, contains_ne_iff, contains_iff_mem,
    mem_keys_pyUnion, mem_keys_create_driver_map, Finset.mem_filter, Finset.mem_inter,
    sigFinset, allDrivers, List.mem_toFinset, List.map_append, List.mem_append]

/-- C9: `create_driver_map` keys records by signature with
last-writer-wins — the lookup at a signature returns exactly the last
input record carrying that signature — and the comparison summary
counts distinct signatures, not input list entries: each of the seven
counters equals the cardinality of the corresponding set of distinct
signatures. -/
theorem create_driver_map_last_writer_wins :
    (∀ (drivers : List Driver) (s : String),
      dictGet (create_driver_map drivers) s =
        drivers.reverse.find? (fun driver => get_driver_signature driver == s))
    ∧ ∀ old_data new_data : ResultsData,
      (compare_drivers old_data new_data).summary.total_removed =
        (sigFinset (allDrivers old_data) \ sigFinset (allDrivers new_data)).card
      ∧ (compare_drivers old_data new_data).summary.total_added =
        (sigFinset (allDrivers new_data) \ sigFinset (allDrivers old_data)).card
      ∧ (compare_drivers old_data new_data).summary.removed_allowed_count =
        ((sigFinset (allDrivers old_data) \ sigFinset (allDrivers new_data)).filter
          (fun s => s ∈ sigFinset old_data.allowed_drivers)).card
      ∧ (compare_drivers old_data new_data).summary.removed_blocked_count =
        ((sigFinset (allDrivers old_data) \ sigFinset (allDrivers new_data)).filter
          (fun s => s ∉ sigFinset old_data.allowed_drivers)).card
      ∧ (compare_drivers old_data new_data).summary.added_allowed_count =
        ((sigFinset (allDrivers new_data) \ sigFinset (allDrivers old_data)).filter
          (fun s => s ∈ sigFinset new_data.allowed_drivers)).card
      ∧ (compare_drivers old_data new_data).summary.added_blocked_count =
        ((sigFinset (allDrivers new_data) \ sigFinset (allDrivers old_data)).filter
          (fun s => s ∉ sigFinset new_data.allowed_drivers)).card
      ∧ (compare_drivers old_data new_data).summary.status_changes_count =
        ((sigFinset (allDrivers old_data) ∩ sigFinset (allDrivers new_data)).filter
          (fun s => ¬ (s ∈ sigFinset old_data.allowed_drivers ↔
            s ∈ sigFinset new_data.allowed_drivers))).card :=
  ⟨fun drivers s => dictGet_create_driver_map drivers s,
   fun old_data new_data =>
    ⟨total_removed_eq_card old_data new_data,
     total_added_eq_card old_data new_data,
     removed_allowed_count_eq_card old_data new_data,
     removed_blocked_count_eq_card old_data new_data,
     added_allowed_count_eq_card old_data new_data,
     added_blocked_count_eq_card old_data new_data,
     status_changes_count_eq_card old_data new_data⟩⟩

end CompareHVCI

/-- C9 witness: two records sharing the signature `sha256:aa` collapse
to the later record in the map, and an old snapshot holding both (one
per bucket) against an empty new snapshot reports exactly one removal. -/
theorem CompareHVCI.create_driver_map_last_writer_wins_witness :
    dictGet (CompareHVCI.create_driver_map
        [⟨some "x.sys", some "1", none, none, some "AA"⟩,
         ⟨some "y.sys", some "2", none, none, some "aa"⟩]) "sha256:aa" =
      some ⟨some "y.sys", some "2", none, none, some "aa"⟩
    ∧ (CompareHVCI.compare_drivers
        ⟨[⟨some "x.sys", some "1", none, none, some "AA"⟩],
         [⟨some "y.sys", some "2", none, none, some "aa"⟩]⟩
        ⟨[], []⟩).summary.total_removed = 1 :=
  ⟨(CompareHVCI.create_driver_map_last_writer_wins.1
      [⟨some "x.sys", some "1", none, none, some "AA"⟩,
       ⟨some "y.sys", some "2", none, none, some "aa"⟩] "sha256:aa").trans (by decide),
   ((CompareHVCI.create_driver_map_last_writer_wins.2
      ⟨[⟨some "x.sys", some "1", none, none, some "AA"⟩],
       [⟨some "y.sys", some "2", none, none, some "aa"⟩]⟩
      ⟨[], []⟩).1).trans (by decide)⟩
